import Mathlib

/-!
Shallow embedding of the `UltraSonicSonar` class from
`src/UltraSonicSonar.ipynb` (Python, RPi.GPIO based HC-SR04 driver).

Modelling conventions:
* Python floats are modelled as exact rationals `ℚ`.
* `math.nan` used for a missing `field_of_view` is modelled by `Option ℚ`
  (`none` = `math.nan`); the value stored when a field of view is supplied
  is `math.radians(d) = d·π/180`, which is an irrational real.  Since the
  code never computes with this value (it is only stored and returned by
  the accessor), we store the exact rational coefficient `c = d/180` such
  that the radian value is `c·π`; theorems about it interpret the field via
  `fun c => (c : ℝ) * Real.pi`.
* `math.nan` returned by `get_range` on the echo-start timeout is modelled
  by the sentinel constructor `RangeResult.noEcho`; a numeric return value
  `r` is `RangeResult.range r`.
* `time.time()` and `GPIO.input(echo)` are modelled by an environment
  `MeasureEnv`: three initial clock readings (the code calls `time.time()`
  three times before the loops), and a list `polls` of records
  `(level, t)`: each loop iteration consumes one record, `level` being what
  `GPIO.input` returns and `t` what the `time.time()` call inside the loop
  body would return (unused when the read exits the loop).  A call whose
  record list runs out while a loop is still spinning has no modelled
  result (`none` at the outer `Option` layer); real executions always have
  enough polls because time advances.
* The GPIO / sleep side effects of `get_range` are recorded as an event
  trace (`GpioEvent`), and the method's post-state is returned explicitly
  so that frame properties can be stated.
-/

namespace RoboJupyter

/-- `SONIC_SPEED = 343.0`, sonic speed in m/s. -/
def SONIC_SPEED : ℚ := 343

/-- `HALF_SONIC_SPEED = SONIC_SPEED / 2.0`. -/
def HALF_SONIC_SPEED : ℚ := SONIC_SPEED / 2

/-- The `UltraSonicSonar` object: the private fields set by `__init__`.
`field_of_view` is stored as the rational coefficient of `π` (see module
docstring); `none` models `math.nan`. -/
structure UltraSonicSonar where
  name : String
  gpio_trigger : Int
  gpio_echo : Int
  min_range : ℚ
  max_range : ℚ
  field_of_view : Option ℚ
  max_wait_time : ℚ
deriving DecidableEq

/-- `UltraSonicSonar.__init__`: stores the parameters; converts a supplied
field of view from degrees to radians (`math.radians(d) = d·π/180`, stored
here as the coefficient `d/180` of `π`), keeps `math.nan` (`none`) when the
argument is absent; computes
`max_wait_time = math.ceil(max_range / SONIC_SPEED * 1000) / 1000`
(the double self-assignment in the source is a no-op).  The Python
constructor performs no validation of any kind. -/
def UltraSonicSonar.make (name : String) (gpio_trigger gpio_echo : Int)
    (min_range max_range : ℚ) (field_of_view : Option ℚ) : UltraSonicSonar :=
  { name := name
    gpio_trigger := gpio_trigger
    gpio_echo := gpio_echo
    min_range := min_range
    max_range := max_range
    field_of_view := field_of_view.map (fun d => d / 180)
    max_wait_time := (Int.ceil (max_range / SONIC_SPEED * 1000) : ℚ) / 1000 }

/-- Externally visible side effects of `get_range`: writes to the trigger
line, `time.sleep`, echo-line reads and clock reads. -/
inductive GpioEvent where
  | setTrigger (level : Bool)
  | sleep (duration : ℚ)
  | readEcho (level : Bool)
  | readTime (t : ℚ)
deriving DecidableEq

/-- Result of `get_range`: `noEcho` models the `math.nan` return on the
echo-start timeout, `range r` a numeric distance in meters. -/
inductive RangeResult where
  | noEcho
  | range (r : ℚ)
deriving DecidableEq

/-- Environment for one `get_range` call: the three initial `time.time()`
readings (in program order: initial `start_time`, initial `stop_time`,
`iteration_start_time`) and the stream of loop poll records. -/
structure MeasureEnv where
  t_start0 : ℚ
  t_stop0 : ℚ
  t_iter0 : ℚ
  polls : List (Bool × ℚ)
deriving DecidableEq

/-- The first loop of `get_range`:
`while GPIO.input(echo) == 0: start_time = time.time(); if start_time -
iteration_start_time > max_wait_time: return math.nan`.
Arguments: timeout reference `t0` (= `iteration_start_time`), budget `w`
(= `max_wait_time`), current `start_time`, remaining polls.  Returns the
outcome — `Sum.inl (start_time, rest)` when the echo reads high (loop
exit), `Sum.inr ()` on timeout (the `return math.nan` branch), `none` if
the polls ran out — paired with the event trace of the loop. -/
def echoStartLoop (t0 w : ℚ) : ℚ → List (Bool × ℚ) →
    Option ((ℚ × List (Bool × ℚ)) ⊕ Unit) × List GpioEvent
  | _, [] => (none, [])
  | st, (lvl, t) :: rest =>
    if lvl then
      (some (Sum.inl (st, rest)), [GpioEvent.readEcho true])
    else if t - t0 > w then
      (some (Sum.inr ()), [GpioEvent.readEcho false, GpioEvent.readTime t])
    else
      let r := echoStartLoop t0 w t rest
      (r.1, GpioEvent.readEcho false :: GpioEvent.readTime t :: r.2)

/-- The second loop of `get_range`:
`while GPIO.input(echo) == 1: stop_time = time.time(); if stop_time -
iteration_start_time > max_wait_time: return self.__max_range`.
Note the timeout reference is the same `iteration_start_time` as in the
first loop.  Returns `Sum.inl stop_time` when the echo reads low (loop
exit), `Sum.inr ()` on timeout (the `return self.__max_range` branch). -/
def echoEndLoop (t0 w : ℚ) : ℚ → List (Bool × ℚ) →
    Option (ℚ ⊕ Unit) × List GpioEvent
  | _, [] => (none, [])
  | sp, (lvl, t) :: rest =>
    if lvl then
      if t - t0 > w then
        (some (Sum.inr ()), [GpioEvent.readEcho true, GpioEvent.readTime t])
      else
        let r := echoEndLoop t0 w t rest
        (r.1, GpioEvent.readEcho true :: GpioEvent.readTime t :: r.2)
    else
      (some (Sum.inl sp), [GpioEvent.readEcho false])

/-- The two sequential clamping `if`s at the end of `get_range`:
`if range_m > max_range: range_m = max_range` then
`if range_m < min_range: range_m = min_range`. -/
def clampRange (s : UltraSonicSonar) (r : ℚ) : ℚ :=
  let r1 := if r > s.max_range then s.max_range else r
  if r1 < s.min_range then s.min_range else r1

/-- Fixed prefix of every `get_range` call: trigger high, `time.sleep(0.00001)`,
trigger low, then the three `time.time()` calls. -/
def triggerPrefix (env : MeasureEnv) : List GpioEvent :=
  [GpioEvent.setTrigger true, GpioEvent.sleep (1 / 100000), GpioEvent.setTrigger false,
   GpioEvent.readTime env.t_start0, GpioEvent.readTime env.t_stop0,
   GpioEvent.readTime env.t_iter0]

/-- `UltraSonicSonar.get_range`, returning the result (`none` when the poll
stream of the environment ran out), the full event trace, and the object's
post-state.  The method assigns only local variables, never a `self` field,
so the post-state component is the receiver unchanged. -/
def get_rangeT (s : UltraSonicSonar) (env : MeasureEnv) :
    Option RangeResult × List GpioEvent × UltraSonicSonar :=
  let p1 := echoStartLoop env.t_iter0 s.max_wait_time env.t_start0 env.polls
  match p1.1 with
  | none => (none, triggerPrefix env ++ p1.2, s)
  | some (Sum.inr _) => (some RangeResult.noEcho, triggerPrefix env ++ p1.2, s)
  | some (Sum.inl (st, rest)) =>
    let p2 := echoEndLoop env.t_iter0 s.max_wait_time env.t_stop0 rest
    match p2.1 with
    | none => (none, triggerPrefix env ++ p1.2 ++ p2.2, s)
    | some (Sum.inr _) =>
      (some (RangeResult.range s.max_range), triggerPrefix env ++ p1.2 ++ p2.2, s)
    | some (Sum.inl sp) =>
      (some (RangeResult.range (clampRange s ((sp - st) * HALF_SONIC_SPEED))),
       triggerPrefix env ++ p1.2 ++ p2.2, s)

/-- The value `get_range` returns. -/
def get_range (s : UltraSonicSonar) (env : MeasureEnv) : Option RangeResult :=
  (get_rangeT s env).1

/-- The event trace of a `get_range` call. -/
def get_range_trace (s : UltraSonicSonar) (env : MeasureEnv) : List GpioEvent :=
  (get_rangeT s env).2.1

/-- The object state after a `get_range` call. -/
def get_range_post (s : UltraSonicSonar) (env : MeasureEnv) : UltraSonicSonar :=
  (get_rangeT s env).2.2

/-- Clock readings occurring in an event trace. -/
def traceTimes (tr : List GpioEvent) : List ℚ :=
  tr.filterMap fun e =>
    match e with
    | GpioEvent.readTime t => some t
    | _ => none

/-- Clock readings taken inside the two polling loops of a `get_range`
call (the trace minus the six fixed prefix events). -/
def pollTimes (s : UltraSonicSonar) (env : MeasureEnv) : List ℚ :=
  traceTimes ((get_range_trace s env).drop 6)

/-- Poll stream of a simulated clean echo pulse: low readings at the times
in `lows ++ [a]`, one high reading exiting the first loop (its unread clock
value `j1`), high readings at the times in `highs ++ [b]`, and one low
reading exiting the second loop (unread clock value `j2`).  The measured
pulse width is `b - a`: the last resampled `start_time` is `a` and the last
resampled `stop_time` is `b`. -/
def pulsePolls (lows : List ℚ) (a j1 : ℚ) (highs : List ℚ) (b j2 : ℚ) :
    List (Bool × ℚ) :=
  (lows ++ [a]).map (fun t => (false, t)) ++
    (true, j1) :: ((highs ++ [b]).map (fun t => (true, t)) ++ [(false, j2)])

/-! Helper lemmas about the clamping step. -/

lemma clampRange_id (s : UltraSonicSonar) (x : ℚ)
    (h1 : s.min_range ≤ x) (h2 : x ≤ s.max_range) : clampRange s x = x := by
  unfold clampRange
  rw [if_neg (not_lt.2 h2), if_neg (not_lt.2 h1)]

lemma clampRange_min (s : UltraSonicSonar) (x : ℚ)
    (h0 : s.min_range ≤ s.max_range) (h : x < s.min_range) :
    clampRange s x = s.min_range := by
  unfold clampRange
  rw [if_neg (not_lt.2 (le_of_lt (lt_of_lt_of_le h h0))), if_pos h]

lemma clampRange_mem (s : UltraSonicSonar) (x : ℚ)
    (h0 : s.min_range ≤ s.max_range) :
    s.min_range ≤ clampRange s x ∧ clampRange s x ≤ s.max_range := by
  unfold clampRange
  rcases lt_or_le s.max_range x with hx | hx
  · rw [if_pos hx, if_neg (not_lt.2 h0)]
    exact ⟨h0, le_refl _⟩
  · rw [if_neg (not_lt.2 hx)]
    rcases lt_or_le x s.min_range with hm | hm
    · rw [if_pos hm]
      exact ⟨le_refl _, h0⟩
    · rw [if_neg (not_lt.2 hm)]
      exact ⟨hm, hx⟩

/-! Helper lemmas about the two polling loops. -/

/-- If the echo stays low through the sample times `lows ++ [a]`, all within
the timeout budget, and then reads high, the first loop exits with
`start_time = a` (the last resampled time) and hands the remaining polls to
the second loop. -/
lemma echoStartLoop_lows (t0 w j1 : ℚ) (rest : List (Bool × ℚ)) :
    ∀ (lows : List ℚ) (st a : ℚ), (∀ t ∈ lows ++ [a], t - t0 ≤ w) →
      (echoStartLoop t0 w st
        (((lows ++ [a]).map fun t => ((false : Bool), t)) ++ (true, j1) :: rest)).1
        = some (Sum.inl (a, rest)) := by
  intro lows
  induction lows with
  | nil =>
    intro st a h
    have ha : a - t0 ≤ w := h a (by simp)
    simp [echoStartLoop, not_lt.2 ha]
  | cons l ls ih =>
    intro st a h
    have hl : l - t0 ≤ w := h l (by simp)
    have h' : ∀ t ∈ ls ++ [a], t - t0 ≤ w := by
      intro t ht
      exact h t (by simp at ht ⊢; tauto)
    simp only [List.cons_append, List.map_cons, echoStartLoop, Bool.false_eq_true,
      if_false, not_lt.2 hl, ite_false, if_neg (not_lt.2 hl)]
    exact ih l a h'

/-- If the echo stays high through the sample times `highs ++ [b]`, all
within the timeout budget, and then reads low, the second loop exits with
`stop_time = b` (the last resampled time). -/
lemma echoEndLoop_highs (t0 w j2 : ℚ) (rest : List (Bool × ℚ)) :
    ∀ (highs : List ℚ) (sp b : ℚ), (∀ t ∈ highs ++ [b], t - t0 ≤ w) →
      (echoEndLoop t0 w sp
        (((highs ++ [b]).map fun t => ((true : Bool), t)) ++ (false, j2) :: rest)).1
        = some (Sum.inl b) := by
  intro highs
  induction highs with
  | nil =>
    intro sp b h
    have hb : b - t0 ≤ w := h b (by simp)
    simp [echoEndLoop, not_lt.2 hb]
  | cons l ls ih =>
    intro sp b h
    have hl : l - t0 ≤ w := h l (by simp)
    have h' : ∀ t ∈ ls ++ [b], t - t0 ≤ w := by
      intro t ht
      exact h t (by simp at ht ⊢; tauto)
    simp only [List.cons_append, List.map_cons, echoEndLoop, if_true,
      if_neg (not_lt.2 hl)]
    exact ih l b h'

/-- If every poll reads low and some polled clock value exceeds the budget,
the first loop hits its timeout branch (`return math.nan`). -/
lemma echoStartLoop_allLow (t0 w : ℚ) :
    ∀ (polls : List (Bool × ℚ)), (∀ p ∈ polls, p.1 = false) →
      ∀ st, (∃ t ∈ polls.map Prod.snd, t - t0 > w) →
        (echoStartLoop t0 w st polls).1 = some (Sum.inr ()) := by
  intro polls
  induction polls with
  | nil => intro _ st hex; simp at hex
  | cons p rest ih =>
    intro hall st hex
    obtain ⟨lvl, t⟩ := p
    have hlvl : lvl = false := hall (lvl, t) (by simp)
    subst hlvl
    rcases lt_or_le w (t - t0) with hgt | hle
    · simp [echoStartLoop, hgt]
    · have hrest : ∀ p ∈ rest, p.1 = false := fun p hp => hall p (by simp [hp])
      have hex' : ∃ u ∈ rest.map Prod.snd, u - t0 > w := by
        rcases hex with ⟨u, hu, hgtu⟩
        simp only [List.map_cons, List.mem_cons] at hu
        rcases hu with rfl | hu
        · exact absurd hgtu (not_lt.2 hle)
        · exact ⟨u, hu, hgtu⟩
      simp only [echoStartLoop, Bool.false_eq_true, if_false, ite_false,
        if_neg (not_lt.2 hle)]
      exact ih hrest t hex'

/-- If every poll reads high and some polled clock value exceeds the budget,
the second loop hits its timeout branch (`return self.__max_range`). -/
lemma echoEndLoop_allHigh (t0 w : ℚ) :
    ∀ (polls : List (Bool × ℚ)), (∀ p ∈ polls, p.1 = true) →
      ∀ sp, (∃ t ∈ polls.map Prod.snd, t - t0 > w) →
        (echoEndLoop t0 w sp polls).1 = some (Sum.inr ()) := by
  intro polls
  induction polls with
  | nil => intro _ sp hex; simp at hex
  | cons p rest ih =>
    intro hall sp hex
    obtain ⟨lvl, t⟩ := p
    have hlvl : lvl = true := hall (lvl, t) (by simp)
    subst hlvl
    rcases lt_or_le w (t - t0) with hgt | hle
    · simp [echoEndLoop, hgt]
    · have hrest : ∀ p ∈ rest, p.1 = true := fun p hp => hall p (by simp [hp])
      have hex' : ∃ u ∈ rest.map Prod.snd, u - t0 > w := by
        rcases hex with ⟨u, hu, hgtu⟩
        simp only [List.map_cons, List.mem_cons] at hu
        rcases hu with rfl | hu
        · exact absurd hgtu (not_lt.2 hle)
        · exact ⟨u, hu, hgtu⟩
      simp only [echoEndLoop, if_true, if_neg (not_lt.2 hle)]
      exact ih hrest t hex'

/-! Helper lemmas about event traces. -/

lemma traceTimes_nil : traceTimes [] = [] := rfl

lemma traceTimes_cons_readEcho (b : Bool) (l : List GpioEvent) :
    traceTimes (GpioEvent.readEcho b :: l) = traceTimes l := rfl

lemma traceTimes_cons_readTime (t : ℚ) (l : List GpioEvent) :
    traceTimes (GpioEvent.readTime t :: l) = t :: traceTimes l := rfl

lemma traceTimes_append (l₁ l₂ : List GpioEvent) :
    traceTimes (l₁ ++ l₂) = traceTimes l₁ ++ traceTimes l₂ :=
  List.filterMap_append l₁ l₂ _

/-- Neither polling loop ever writes the trigger line. -/
lemma echoStartLoop_no_setTrigger (t0 w : ℚ) :
    ∀ (polls : List (Bool × ℚ)) (st : ℚ),
      ∀ e ∈ (echoStartLoop t0 w st polls).2, ∀ b, e ≠ GpioEvent.setTrigger b := by
  intro polls
  induction polls with
  | nil => intro st e he; simp [echoStartLoop] at he
  | cons p rest ih =>
    intro st e he b
    obtain ⟨lvl, t⟩ := p
    cases lvl
    · rcases lt_or_le w (t - t0) with hgt | hle
      · simp [echoStartLoop, hgt] at he
        rcases he with rfl | rfl <;> simp
      · simp only [echoStartLoop, Bool.false_eq_true, if_false, ite_false,
          if_neg (not_lt.2 hle), List.mem_cons] at he
        rcases he with rfl | he
        · simp
        · rcases he with rfl | he
          · simp
          · exact ih t e he b
    · simp [echoStartLoop] at he
      subst he; simp

lemma echoEndLoop_no_setTrigger (t0 w : ℚ) :
    ∀ (polls : List (Bool × ℚ)) (sp : ℚ),
      ∀ e ∈ (echoEndLoop t0 w sp polls).2, ∀ b, e ≠ GpioEvent.setTrigger b := by
  intro polls
  induction polls with
  | nil => intro sp e he; simp [echoEndLoop] at he
  | cons p rest ih =>
    intro sp e he b
    obtain ⟨lvl, t⟩ := p
    cases lvl
    · simp [echoEndLoop] at he
      subst he; simp
    · rcases lt_or_le w (t - t0) with hgt | hle
      · simp [echoEndLoop, hgt] at he
        rcases he with rfl | rfl <;> simp
      · simp only [echoEndLoop, if_true, if_neg (not_lt.2 hle), List.mem_cons] at he
        rcases he with rfl | he
        · simp
        · rcases he with rfl | he
          · simp
          · exact ih t e he b

/-- Every clock value sampled by the first loop in a run that exits into the
second loop is within the budget measured from `t0`. -/
lemma echoStartLoop_times_inl (t0 w : ℚ) :
    ∀ (polls : List (Bool × ℚ)) (st : ℚ) x,
      (echoStartLoop t0 w st polls).1 = some (Sum.inl x) →
      ∀ t ∈ traceTimes (echoStartLoop t0 w st polls).2, t - t0 ≤ w := by
  intro polls
  induction polls with
  | nil => intro st x hx; simp [echoStartLoop] at hx
  | cons p rest ih =>
    intro st x hx t ht
    obtain ⟨lvl, u⟩ := p
    cases lvl
    · rcases lt_or_le w (u - t0) with hgt | hle
      · simp [echoStartLoop, hgt] at hx
      · simp only [echoStartLoop, Bool.false_eq_true, if_false, ite_false,
          if_neg (not_lt.2 hle)] at hx ht
        rw [traceTimes_cons_readEcho, traceTimes_cons_readTime] at ht
        rcases List.mem_cons.1 ht with rfl | ht
        · exact hle
        · exact ih u x hx t ht
    · simp [echoStartLoop, traceTimes] at ht

/-- Every clock value sampled by the first loop, except possibly the last
one (which may be the returning timeout sample), is within the budget. -/
lemma echoStartLoop_times_dropLast (t0 w : ℚ) :
    ∀ (polls : List (Bool × ℚ)) (st : ℚ),
      ∀ t ∈ (traceTimes (echoStartLoop t0 w st polls).2).dropLast, t - t0 ≤ w := by
  intro polls
  induction polls with
  | nil => intro st t ht; simp [echoStartLoop, traceTimes] at ht
  | cons p rest ih =>
    intro st t ht
    obtain ⟨lvl, u⟩ := p
    cases lvl
    · rcases lt_or_le w (u - t0) with hgt | hle
      · simp [echoStartLoop, hgt, traceTimes, List.filterMap] at ht
      · simp only [echoStartLoop, Bool.false_eq_true, if_false, ite_false,
          if_neg (not_lt.2 hle)] at ht
        rw [traceTimes_cons_readEcho, traceTimes_cons_readTime] at ht
        rcases hcase : traceTimes (echoStartLoop t0 w u rest).2 with _ | ⟨v, vs⟩
        · rw [hcase] at ht; simp at ht
        · rw [hcase, List.dropLast_cons₂] at ht
          rcases List.mem_cons.1 ht with rfl | ht
          · exact hle
          · have := ih u t
            rw [hcase] at this
            exact this ht
    · simp [echoStartLoop, traceTimes] at ht

/-- Every clock value sampled by the second loop, except possibly the last
one (which may be the returning timeout sample), is within the budget. -/
lemma echoEndLoop_times_dropLast (t0 w : ℚ) :
    ∀ (polls : List (Bool × ℚ)) (sp : ℚ),
      ∀ t ∈ (traceTimes (echoEndLoop t0 w sp polls).2).dropLast, t - t0 ≤ w := by
  intro polls
  induction polls with
  | nil => intro sp t ht; simp [echoEndLoop, traceTimes] at ht
  | cons p rest ih =>
    intro sp t ht
    obtain ⟨lvl, u⟩ := p
    cases lvl
    · simp [echoEndLoop, traceTimes] at ht
    · rcases lt_or_le w (u - t0) with hgt | hle
      · simp [echoEndLoop, hgt, traceTimes, List.filterMap] at ht
      · simp only [echoEndLoop, if_true, if_neg (not_lt.2 hle)] at ht
        rw [traceTimes_cons_readEcho, traceTimes_cons_readTime] at ht
        rcases hcase : traceTimes (echoEndLoop t0 w u rest).2 with _ | ⟨v, vs⟩
        · rw [hcase] at ht; simp at ht
        · rw [hcase, List.dropLast_cons₂] at ht
          rcases List.mem_cons.1 ht with rfl | ht
          · exact hle
          · have := ih u t
            rw [hcase] at this
            exact this ht

/-- The method assigns only local variables: its post-state is the receiver. -/
lemma get_range_post_eq (s : UltraSonicSonar) (env : MeasureEnv) :
    get_range_post s env = s := by
  unfold get_range_post get_rangeT
  rcases h1 : (echoStartLoop env.t_iter0 s.max_wait_time env.t_start0 env.polls).1 with
    _ | x
  · simp [h1]
  · rcases x with ⟨st, rest⟩ | u
    · rcases h2 : (echoEndLoop env.t_iter0 s.max_wait_time env.t_stop0 rest).1 with
        _ | y
      · simp [h1, h2]
      · rcases y with sp | v
        · simp [h1, h2]
        · simp [h1, h2]
    · simp [h1]

/-! Claim theorems. -/

/-- C1: for every measurement in which the echo line rises and then falls
within the timeout (a simulated pulse whose polled low readings `lows ++ [a]`
and high readings `highs ++ [b]` all stay within `max_wait_time` of the
reference time, so the measured pulse width is `w = b - a` seconds),
`get_range` returns `w * 171.5` clamped into
`[min_range, max_range]`; when `min_range/171.5 ≤ w ≤ max_range/171.5` this
is `w * 171.5` itself, and a pulse width computing to a distance below
`min_range` yields exactly `min_range`. -/
theorem C1_measure_pulse_clamped (s : UltraSonicSonar) (env : MeasureEnv)
    (lows highs : List ℚ) (a j1 b j2 : ℚ)
    (henv : env.polls = pulsePolls lows a j1 highs b j2)
    (hlow : ∀ t ∈ lows ++ [a], t - env.t_iter0 ≤ s.max_wait_time)
    (hhigh : ∀ t ∈ highs ++ [b], t - env.t_iter0 ≤ s.max_wait_time) :
    get_range s env
        = some (RangeResult.range (clampRange s ((b - a) * HALF_SONIC_SPEED)))
      ∧ (s.min_range ≤ (b - a) * HALF_SONIC_SPEED →
          (b - a) * HALF_SONIC_SPEED ≤ s.max_range →
          get_range s env = some (RangeResult.range ((b - a) * HALF_SONIC_SPEED)))
      ∧ (s.min_range ≤ s.max_range →
          (b - a) * HALF_SONIC_SPEED < s.min_range →
          get_range s env = some (RangeResult.range s.min_range)) := by
  have h1 : (echoStartLoop env.t_iter0 s.max_wait_time env.t_start0 env.polls).1
      = some (Sum.inl (a,
          ((highs ++ [b]).map fun t => ((true : Bool), t)) ++ (false, j2) :: [])) := by
    rw [henv]
    exact echoStartLoop_lows env.t_iter0 s.max_wait_time j1 _ lows env.t_start0 a hlow
  have h2 : (echoEndLoop env.t_iter0 s.max_wait_time env.t_stop0
        (((highs ++ [b]).map fun t => ((true : Bool), t)) ++ (false, j2) :: [])).1
      = some (Sum.inl b) :=
    echoEndLoop_highs env.t_iter0 s.max_wait_time j2 [] highs env.t_stop0 b hhigh
  have hmain : get_range s env
      = some (RangeResult.range (clampRange s ((b - a) * HALF_SONIC_SPEED))) := by
    simp only [get_range, get_rangeT, h1, h2]
  refine ⟨hmain, fun hm hM => ?_, fun h0 hlt => ?_⟩
  · rw [hmain, clampRange_id s _ hm hM]
  · rw [hmain, clampRange_min s _ h0 hlt]

/-- C2 counterexample: the claim says construction with inverted range
bounds (`min ≥ max`) fails with `InvalidConfiguration`; in the code
`__init__` performs no validation whatsoever, so constructing with
`min_range = 4 > 1 = max_range` succeeds and stores the inverted bounds
unchanged — no error path exists. -/
theorem C2_counterexample :
    (UltraSonicSonar.make "bad" 15 14 4 1 none).min_range = 4 ∧
    (UltraSonicSonar.make "bad" 15 14 4 1 none).max_range = 1 :=
  ⟨rfl, rfl⟩

/-- C2 amended: construction never fails; every input — including inverted,
negative or otherwise malformed range bounds — is accepted, and the bounds
are stored unchanged; no validation happens at construction (there is no
`InvalidConfiguration` error in the code) and none at measurement time. -/
theorem C2_amended_no_validation (name : String) (tr ec : Int) (mn mx : ℚ)
    (fov : Option ℚ) :
    (UltraSonicSonar.make name tr ec mn mx fov).min_range = mn ∧
    (UltraSonicSonar.make name tr ec mn mx fov).max_range = mx :=
  ⟨rfl, rfl⟩

/-- C3: when the echo line never reads high (all polls low) and the polled
clock exceeds `max_wait_time` past the reference time, `get_range` returns
the `NoEcho` sentinel (the `return math.nan` branch), not a raised error —
the embedding has no exception outcome and this branch yields the sentinel
value. -/
theorem C3_no_echo_timeout (s : UltraSonicSonar) (env : MeasureEnv)
    (hall : ∀ p ∈ env.polls, p.1 = false)
    (hex : ∃ t ∈ env.polls.map Prod.snd, t - env.t_iter0 > s.max_wait_time) :
    get_range s env = some RangeResult.noEcho := by
  have h1 := echoStartLoop_allLow env.t_iter0 s.max_wait_time env.polls hall
    env.t_start0 hex
  simp only [get_range, get_rangeT, h1]

/-- C4: when the echo line reads high on the first poll and stays high past
the timeout (the polled clock exceeds `max_wait_time` past the reference
time while the line is still high), `get_range` returns exactly
`max_range` — the `MaxRange` sentinel, a value distinct from the `NoEcho`
sentinel, so the two timeout outcomes are always distinguishable. -/
theorem C4_max_range_timeout (s : UltraSonicSonar) (env : MeasureEnv)
    (t1 : ℚ) (rest : List (Bool × ℚ))
    (hp : env.polls = (true, t1) :: rest)
    (hall : ∀ p ∈ rest, p.1 = true)
    (hex : ∃ t ∈ rest.map Prod.snd, t - env.t_iter0 > s.max_wait_time) :
    get_range s env = some (RangeResult.range s.max_range) ∧
      RangeResult.range s.max_range ≠ RangeResult.noEcho := by
  have h1 : (echoStartLoop env.t_iter0 s.max_wait_time env.t_start0 env.polls).1
      = some (Sum.inl (env.t_start0, rest)) := by
    rw [hp]; simp [echoStartLoop]
  have h2 := echoEndLoop_allHigh env.t_iter0 s.max_wait_time rest hall env.t_stop0 hex
  exact ⟨by simp only [get_range, get_rangeT, h1, h2], by simp⟩

lemma mem_dropLast_append {α : Type} {t : α} {l₁ l₂ : List α}
    (h : t ∈ (l₁ ++ l₂).dropLast) : t ∈ l₁ ∨ t ∈ l₂.dropLast := by
  cases l₂ with
  | nil =>
    rw [List.append_nil] at h
    exact Or.inl (List.mem_of_mem_dropLast h)
  | cons b bs =>
    rw [List.dropLast_append_cons] at h
    exact List.mem_append.1 h

lemma triggerPrefix_drop (env : MeasureEnv) (X : List GpioEvent) :
    (triggerPrefix env ++ X).drop 6 = X := by
  rw [show (6 : ℕ) = (triggerPrefix env).length from rfl, List.drop_left]

/-- C5 counterexample: with bounds `(0, 343)` the constructed budget is
`max_wait_time = 1` second.  Simulated run: the echo stays low at the
sample taken `0.9 s` after the reference time, then reads high (the first
wait phase ends), and the first sample of the second wait phase is taken at
`1.01 s`.  Only `1.01 − 0.9 = 0.11 s < max_wait_time` have elapsed since
the second phase began, yet `get_range` already returns the `MaxRange`
timeout sentinel, because the code measures both phases against the single
reference time taken at trigger end — the second phase is not allowed
`max_wait_s` from its own start, refuting the claimed independent
per-phase budgets (and the claimed worst case of `≈ 2 × max_wait_s`). -/
theorem C5_counterexample :
    get_range (UltraSonicSonar.make "c5" 15 14 0 343 none)
        ⟨0, 0, 0, [(false, 9 / 10), (true, 0), (true, 101 / 100)]⟩
      = some (RangeResult.range 343) ∧
    (UltraSonicSonar.make "c5" 15 14 0 343 none).max_wait_time = 1 ∧
    (101 / 100 : ℚ) - 9 / 10
      < (UltraSonicSonar.make "c5" 15 14 0 343 none).max_wait_time := by
  have hs : UltraSonicSonar.make "c5" 15 14 0 343 none
      = ⟨"c5", 15, 14, 0, 343, none, 1⟩ := by
    norm_num [UltraSonicSonar.make, SONIC_SPEED]
  rw [hs]
  refine ⟨?_, rfl, by norm_num⟩
  norm_num [get_range, get_rangeT, echoStartLoop, echoEndLoop, clampRange,
    HALF_SONIC_SPEED, SONIC_SPEED]

/-- C5 amended: every `get_range` call either completes or returns a
timeout sentinel, and the two wait phases share a single timeout budget
`max_wait_time` measured from the one reference time taken right after the
trigger pulse: every clock value polled inside the loops — except possibly
the final, returning sample — lies within `max_wait_time` of that
reference, so the worst-case blocking time is ≈ `max_wait_time` total (one
budget for both phases), not ≈ `2 × max_wait_time`; in particular the
pulse-duration wait gets no fresh budget from its own start. -/
theorem C5_shared_timeout_budget (s : UltraSonicSonar) (env : MeasureEnv) :
    ∀ t ∈ (pollTimes s env).dropLast, t - env.t_iter0 ≤ s.max_wait_time := by
  intro t ht
  rcases h1 : (echoStartLoop env.t_iter0 s.max_wait_time env.t_start0 env.polls).1 with
    _ | x
  · simp only [pollTimes, get_range_trace, get_rangeT, h1, triggerPrefix_drop] at ht
    exact echoStartLoop_times_dropLast env.t_iter0 s.max_wait_time env.polls
      env.t_start0 t ht
  · rcases x with ⟨st, rest⟩ | u
    · have hT1 : ∀ u ∈ traceTimes
          (echoStartLoop env.t_iter0 s.max_wait_time env.t_start0 env.polls).2,
          u - env.t_iter0 ≤ s.max_wait_time :=
        echoStartLoop_times_inl env.t_iter0 s.max_wait_time env.polls env.t_start0 _ h1
      have hT2 : ∀ u ∈ (traceTimes
          (echoEndLoop env.t_iter0 s.max_wait_time env.t_stop0 rest).2).dropLast,
          u - env.t_iter0 ≤ s.max_wait_time :=
        echoEndLoop_times_dropLast env.t_iter0 s.max_wait_time rest env.t_stop0
      rcases h2 : (echoEndLoop env.t_iter0 s.max_wait_time env.t_stop0 rest).1 with
        _ | y
      · simp only [pollTimes, get_range_trace, get_rangeT, h1, h2,
          List.append_assoc, triggerPrefix_drop, traceTimes_append] at ht
        rcases mem_dropLast_append ht with h | h
        · exact hT1 t h
        · exact hT2 t h
      · rcases y with sp | v
        · simp only [pollTimes, get_range_trace, get_rangeT, h1, h2,
            List.append_assoc, triggerPrefix_drop, traceTimes_append] at ht
          rcases mem_dropLast_append ht with h | h
          · exact hT1 t h
          · exact hT2 t h
        · simp only [pollTimes, get_range_trace, get_rangeT, h1, h2,
            List.append_assoc, triggerPrefix_drop, traceTimes_append] at ht
          rcases mem_dropLast_append ht with h | h
          · exact hT1 t h
          · exact hT2 t h
    · simp only [pollTimes, get_range_trace, get_rangeT, h1, triggerPrefix_drop] at ht
      exact echoStartLoop_times_dropLast env.t_iter0 s.max_wait_time env.polls
        env.t_start0 t ht

/-- C6: for every construction with bounds `(min, max)`, the derived field
`max_wait_time` equals `ceil(max / 343.0 * 1000) / 1000` (the echo wait
budget, rounded up to millisecond granularity); it is computed at
construction and never changed afterwards — in particular a `get_range`
call leaves it untouched. -/
theorem C6_max_wait_derivation (name : String) (tr ec : Int) (mn mx : ℚ)
    (fov : Option ℚ) (env : MeasureEnv) :
    (UltraSonicSonar.make name tr ec mn mx fov).max_wait_time
        = (Int.ceil (mx / 343 * 1000) : ℚ) / 1000 ∧
    (get_range_post (UltraSonicSonar.make name tr ec mn mx fov) env).max_wait_time
        = (UltraSonicSonar.make name tr ec mn mx fov).max_wait_time := by
  refine ⟨rfl, ?_⟩
  rw [get_range_post_eq]

/-- C7: every `get_range` call starts with exactly the digital-output
sequence trigger-high, a 10 microsecond (`0.00001 s`) sleep, trigger-low,
before any echo-line read, and the trigger line is never written again
during the measurement. -/
theorem C7_trigger_sequence (s : UltraSonicSonar) (env : MeasureEnv) :
    (get_range_trace s env).take 3
        = [GpioEvent.setTrigger true, GpioEvent.sleep (1 / 100000),
           GpioEvent.setTrigger false]
      ∧ ∀ e ∈ (get_range_trace s env).drop 3, ∀ b, e ≠ GpioEvent.setTrigger b := by
  have hshape : ∃ X, get_range_trace s env = triggerPrefix env ++ X ∧
      ∀ e ∈ X, ∀ b, e ≠ GpioEvent.setTrigger b := by
    rcases h1 : (echoStartLoop env.t_iter0 s.max_wait_time env.t_start0 env.polls).1
      with _ | x
    · exact ⟨_, by simp only [get_range_trace, get_rangeT, h1],
        echoStartLoop_no_setTrigger env.t_iter0 s.max_wait_time env.polls env.t_start0⟩
    · rcases x with ⟨st, rest⟩ | u
      · have hmem : ∀ e ∈ (echoStartLoop env.t_iter0 s.max_wait_time env.t_start0
              env.polls).2 ++
            (echoEndLoop env.t_iter0 s.max_wait_time env.t_stop0 rest).2,
            ∀ b, e ≠ GpioEvent.setTrigger b := by
          intro e he b
          rcases List.mem_append.1 he with h | h
          · exact echoStartLoop_no_setTrigger env.t_iter0 s.max_wait_time env.polls
              env.t_start0 e h b
          · exact echoEndLoop_no_setTrigger env.t_iter0 s.max_wait_time rest
              env.t_stop0 e h b
        rcases h2 : (echoEndLoop env.t_iter0 s.max_wait_time env.t_stop0 rest).1 with
          _ | y
        · exact ⟨_, by simp only [get_range_trace, get_rangeT, h1, h2,
            List.append_assoc], hmem⟩
        · rcases y with sp | v
          · exact ⟨_, by simp only [get_range_trace, get_rangeT, h1, h2,
              List.append_assoc], hmem⟩
          · exact ⟨_, by simp only [get_range_trace, get_rangeT, h1, h2,
              List.append_assoc], hmem⟩
      · exact ⟨_, by simp only [get_range_trace, get_rangeT, h1],
        echoStartLoop_no_setTrigger env.t_iter0 s.max_wait_time env.polls env.t_start0⟩
  obtain ⟨X, hX, hXt⟩ := hshape
  constructor
  · rw [hX]; rfl
  · intro e he b
    rw [hX] at he
    have hd : (triggerPrefix env ++ X).drop 3
        = GpioEvent.readTime env.t_start0 :: GpioEvent.readTime env.t_stop0 ::
          GpioEvent.readTime env.t_iter0 :: X := rfl
    rw [hd] at he
    simp only [List.mem_cons] at he
    rcases he with rfl | rfl | rfl | he
    · simp
    · simp
    · simp
    · exact hXt e he b

/-- C8: `get_range` mutates no field of the sonar object — the method body
assigns only local variables, so the configuration is immutable for the
object's lifetime — and hence a repeated call against the same simulated
environment returns the same result: no state leaks from one call into the
next. -/
theorem C8_no_state_mutation (s : UltraSonicSonar) (env : MeasureEnv) :
    get_range_post s env = s ∧
    get_range (get_range_post s env) env = get_range s env := by
  refine ⟨get_range_post_eq s env, ?_⟩
  rw [get_range_post_eq]

/-- C9: when a field-of-view argument `d` (degrees) is supplied, the stored
`field_of_view` is that value converted once to radians, `d·π/180`
(the stored rational coefficient `c` of `π` satisfies `c·π = d·π/180`);
when it is not supplied, the stored value is the explicit absent value
(`none`, modelling `math.nan`); the accessor is the field projection and
returns exactly the stored value. -/
theorem C9_field_of_view_radians (name : String) (tr ec : Int) (mn mx : ℚ) :
    (∀ d : ℚ,
      ((UltraSonicSonar.make name tr ec mn mx (some d)).field_of_view).map
          (fun c : ℚ => (c : ℝ) * Real.pi)
        = some ((d : ℝ) * Real.pi / 180)) ∧
    (UltraSonicSonar.make name tr ec mn mx none).field_of_view = none := by
  refine ⟨fun d => ?_, rfl⟩
  simp only [UltraSonicSonar.make, Option.map_some']
  congr 1
  push_cast
  ring

/-- C10: for every sonar whose bounds satisfy `min_range ≤ max_range`,
every numeric value returned by `get_range` — from the normal completion
path (which passes through the clamp) or from the end-wait timeout path
(which returns `max_range` directly without the clamp) — lies in the
closed interval `[min_range, max_range]`. -/
theorem C10_result_within_bounds (s : UltraSonicSonar) (env : MeasureEnv) (r : ℚ)
    (hmm : s.min_range ≤ s.max_range)
    (hr : get_range s env = some (RangeResult.range r)) :
    s.min_range ≤ r ∧ r ≤ s.max_range := by
  rcases h1 : (echoStartLoop env.t_iter0 s.max_wait_time env.t_start0 env.polls).1 with
    _ | x
  · simp [get_range, get_rangeT, h1] at hr
  · rcases x with ⟨st, rest⟩ | u
    · rcases h2 : (echoEndLoop env.t_iter0 s.max_wait_time env.t_stop0 rest).1 with
        _ | y
      · simp [get_range, get_rangeT, h1, h2] at hr
      · rcases y with sp | v
        · simp only [get_range, get_rangeT, h1, h2, Option.some_inj,
            RangeResult.range.injEq] at hr
          rw [← hr]
          exact clampRange_mem s _ hmm
        · simp only [get_range, get_rangeT, h1, h2, Option.some_inj,
            RangeResult.range.injEq] at hr
          rw [← hr]
          exact ⟨hmm, le_refl _⟩
    · simp [get_range, get_rangeT, h1] at hr

/-! Witness theorems: each one instantiates the corresponding claim theorem
at a concrete sonar and simulated environment, discharging its hypotheses
there. -/

/-- C1 witness: bounds `(0.05, 4)` (budget `0.012 s`), one low sample at
`0.001 s` and one high sample at `0.005 s`: the measured pulse width is
`0.004 s` and the returned distance `0.004 · 171.5 = 0.686 = 343/500 m`,
unclamped since it lies inside the bounds. -/
theorem C1_witness :
    get_range ⟨"w", 15, 14, 1 / 20, 4, none, 3 / 250⟩
        ⟨0, 0, 0, pulsePolls [] (1 / 1000) 0 [] (1 / 1000 + 1 / 250) 0⟩
      = some (RangeResult.range (343 / 500)) := by
  have h := C1_measure_pulse_clamped ⟨"w", 15, 14, 1 / 20, 4, none, 3 / 250⟩
    ⟨0, 0, 0, pulsePolls [] (1 / 1000) 0 [] (1 / 1000 + 1 / 250) 0⟩
    [] [] (1 / 1000) 0 (1 / 1000 + 1 / 250) 0 rfl
    (by intro t ht; simp at ht; subst ht; norm_num)
    (by intro t ht; simp at ht; subst ht; norm_num)
  have h2 := h.2.1 (by norm_num [HALF_SONIC_SPEED, SONIC_SPEED])
    (by norm_num [HALF_SONIC_SPEED, SONIC_SPEED])
  rw [h2]
  norm_num [HALF_SONIC_SPEED, SONIC_SPEED]

/-- C3 witness: the echo line never reads high; the single poll samples the
clock at `1 s`, past the `0.012 s` budget, so the call returns `noEcho`. -/
theorem C3_witness :
    get_range ⟨"n", 15, 14, 1 / 20, 4, none, 3 / 250⟩ ⟨0, 0, 0, [(false, 1)]⟩
      = some RangeResult.noEcho :=
  C3_no_echo_timeout ⟨"n", 15, 14, 1 / 20, 4, none, 3 / 250⟩
    ⟨0, 0, 0, [(false, 1)]⟩ (by simp) ⟨1, by simp, by norm_num⟩

/-- C4 witness: the echo line reads high immediately and stays high; the
second poll samples the clock at `1 s`, past the `0.012 s` budget, so the
call returns exactly `max_range = 4`, distinct from `noEcho`. -/
theorem C4_witness :
    get_range ⟨"m", 15, 14, 1 / 20, 4, none, 3 / 250⟩
        ⟨0, 0, 0, [(true, 0), (true, 1)]⟩
      = some (RangeResult.range 4) ∧
    RangeResult.range (4 : ℚ) ≠ RangeResult.noEcho :=
  C4_max_range_timeout ⟨"m", 15, 14, 1 / 20, 4, none, 3 / 250⟩
    ⟨0, 0, 0, [(true, 0), (true, 1)]⟩ 0 [(true, 1)] rfl (by simp)
    ⟨1, by simp, by norm_num⟩

/-- C5 witness: in a run with loop samples at `0.001 s` and `0.002 s`
followed by a normal completion, the non-final poll time `0.001 s` is
within the shared budget of the reference time. -/
theorem C5_witness :
    (1 / 1000 : ℚ) - 0 ≤ 3 / 250 :=
  C5_shared_timeout_budget ⟨"b", 15, 14, 1 / 20, 4, none, 3 / 250⟩
    ⟨0, 0, 0, [(false, 1 / 1000), (false, 1 / 500), (true, 0), (false, 0)]⟩
    (1 / 1000)
    (by norm_num [pollTimes, get_range_trace, get_rangeT, echoStartLoop, echoEndLoop,
      traceTimes, triggerPrefix, List.dropLast, List.filterMap])

/-- C7 witness: in a concrete call the event after the trigger sequence is
a clock read, not a trigger write. -/
theorem C7_witness :
    GpioEvent.readTime 0 ≠ GpioEvent.setTrigger true :=
  (C7_trigger_sequence ⟨"t", 15, 14, 1 / 20, 4, none, 3 / 250⟩ ⟨0, 0, 0, []⟩).2
    (GpioEvent.readTime 0)
    (by norm_num [get_range_trace, get_rangeT, echoStartLoop, triggerPrefix]) true

/-- C10 witness: a concrete completed measurement returns `3087/2000 =
1.5435 m`, which lies within the bounds `[0.05, 4]`. -/
theorem C10_witness :
    (1 / 20 : ℚ) ≤ 3087 / 2000 ∧ (3087 / 2000 : ℚ) ≤ 4 :=
  C10_result_within_bounds ⟨"r", 15, 14, 1 / 20, 4, none, 3 / 250⟩
    ⟨0, 0, 0, [(false, 1 / 1000), (true, 0), (true, 1 / 100), (false, 0)]⟩
    (3087 / 2000) (by norm_num)
    (by norm_num [get_range, get_rangeT, echoStartLoop, echoEndLoop, clampRange,
      HALF_SONIC_SPEED, SONIC_SPEED])

end RoboJupyter
